import Mathlib

/-!
# Verification of the full-duplex streaming CLI wrapper

Shallow embedding of `ClaudeCLIWrapper` from `scripts/test_cc_cli_multiplex.py`:
the JSON event model, the `wait_for_result` collection loop, the
`send_raw`/`send_message` transport, and `stop`.

Modelling conventions:
* A JSON value is `JVal`; a parsed event (a JSON object) is a `JObj`, an
  association list of string keys to values, read with `jget` (Python's
  `dict.get`; parsed objects are modelled with their final key bindings).
* A line popped from the stdout queue either fails `json.loads`
  (`Line.malformed raw`) or parses to an object (`Line.event e`).
* The wait loop interacts with its environment once per iteration; one
  `Obs` record carries what the iteration observes: the elapsed wall-clock
  time at the top of the loop body (`time.time() - start_time`), the result
  of `process.poll()` (`none` = still running), and the lines the reader
  thread pushed onto the queue since the previous iteration (`arrivals`).
  `stdout_queue.get(timeout=0.2)` then pops the head of the merged queue,
  or raises `queue.Empty` when the merged queue is empty.
* Logging calls (`logger.info` / `sys.stdout.write` progress dots) have no
  effect on control flow or on returned data; the two logging effects the
  spec talks about are kept as observables: the diagnostic retention of
  non-JSON lines (`diagLog`) and the exit code printed by
  `logger.error` on the process-exit branch (`loggedExit`).
  `check_status()` on the timeout branch only logs and is dropped.
-/

/-- JSON values, as produced by `json.loads` / consumed by `json.dumps`. -/
inductive JVal where
  | null
  | bool (b : Bool)
  | num (n : Int)
  | str (s : String)
  | arr (xs : List JVal)
  | obj (fields : List (String × JVal))

/-- A parsed JSON object: what `json.loads` returns for a protocol event. -/
abbrev JObj := List (String × JVal)

/-- Python `dict.get key`: the binding of `k`, or `none` when absent. -/
def jget : JObj → String → Option JVal
  | [], _ => none
  | (k', v) :: rest, k => if k' = k then some v else jget rest k

/-- The `type` discriminant of an event when it is a string
(`e_type = event.get("type")`; non-string values compare unequal to every
tag in the Python chain, exactly as `none` does here). -/
def typeTag (e : JObj) : Option String :=
  match jget e ("type") with
  | some (JVal.str s) => some s
  | _ => none

/-- The classification a consumed event receives in the `wait_for_result`
dispatch chain (one case per `if`/`elif` arm, plus the implicit default). -/
inductive EClass where
  | progress    -- "thinking" / "status"
  | toolUse     -- "tool_use"
  | message     -- "assistant" / "user" (nested tool_use scan is log-only)
  | error       -- "error"
  | result      -- "result": the only terminal tag
  | other       -- anything else, including an absent or non-string type
  deriving DecidableEq, Repr

/-- The `e_type` dispatch chain of `wait_for_result`, in source order. -/
def classify (e : JObj) : EClass :=
  match typeTag e with
  | some s =>
    if s = "thinking" ∨ s = "status" then EClass.progress
    else if s = "tool_use" then EClass.toolUse
    else if s = "assistant" ∨ s = "user" then EClass.message
    else if s = "error" then EClass.error
    else if s = "result" then EClass.result
    else EClass.other
  | none => EClass.other

/-- The recognized `type` tags of the protocol. -/
def recognizedTags : List String :=
  ["thinking", "status", "tool_use", "assistant", "user", "error", "result"]

/-- Python's `str.strip()`: drop leading and trailing whitespace. -/
def pyStrip (s : String) : String :=
  String.mk
    (((s.data.dropWhile Char.isWhitespace).reverse.dropWhile
      Char.isWhitespace).reverse)

/-- A line pulled from the primary (stdout) queue: either it fails
`json.loads` or it parses to a JSON object. -/
inductive Line where
  | malformed (raw : String)
  | event (e : JObj)

/-- What one iteration of the wait loop observes from its environment. -/
structure Obs where
  /-- `time.time() - start_time` at the top of the loop body. -/
  elapsed : Nat
  /-- `process.poll()`: `none` while running, `some code` after exit. -/
  poll : Option Int
  /-- Lines the reader thread pushed since the previous iteration. -/
  arrivals : List Line

/-- Why the wait loop returned (`fuelOut`: the observation trace ran out
while the loop was still going — the model's stand-in for nontermination). -/
inductive Reason where
  | timeout
  | exited (code : Int)
  | success
  | fuelOut
  deriving DecidableEq, Repr

/-- The outcome of a `wait_for_result` call.  `ok` and `events` are the
Python return value `(ok, events)`; `eventLog` is `self.event_log` after
the call; `diagLog` collects the `logger.warning` retention of non-JSON
lines; `queue` is what remains unconsumed on the stdout queue; and
`loggedExit` is the exit code `logger.error` printed when the liveness
poll observed process exit. -/
structure WaitResult where
  ok : Bool
  events : List JObj
  reason : Reason
  eventLog : List JObj
  diagLog : List String
  queue : List Line
  loggedExit : Option Int

/-- The body of `wait_for_result`, one constructor step of the trace per
loop iteration.  Mirrors the source: timeout check first, then the
liveness poll, then a queue pop (`queue.Empty` continues the loop), then
`json.loads` (failure keeps non-blank lines as diagnostics and continues),
then append-to-both-logs and the `type` dispatch, where only `result`
returns. -/
def waitLoop (t : Nat) :
    List JObj → List String → List JObj → List Line → List Obs → WaitResult
  | log, _diag, events, q, [] =>
      ⟨false, events, Reason.fuelOut, log, _diag, q, none⟩
  | log, diag, events, q, o :: rest =>
    if t < o.elapsed then
      ⟨false, events, Reason.timeout, log, diag, q ++ o.arrivals, none⟩
    else
      match o.poll with
      | some code =>
          ⟨false, events, Reason.exited code, log, diag, q ++ o.arrivals,
            some code⟩
      | none =>
        match q ++ o.arrivals with
        | [] => waitLoop t log diag events [] rest
        | Line.malformed raw :: q2 =>
            waitLoop t log (if pyStrip raw = "" then diag else diag ++ [raw])
              events q2 rest
        | Line.event e :: q2 =>
            if classify e = EClass.result then
              ⟨true, events ++ [e], Reason.success, log ++ [e], diag, q2, none⟩
            else
              waitLoop t (log ++ [e]) diag (events ++ [e]) q2 rest

/-- `wait_for_result(timeout)` on a wrapper whose event log is `log`, whose
stdout queue currently holds `q`, run against the observation trace `obs`
(`events` starts empty, as in the source). -/
def waitForResult (t : Nat) (log : List JObj) (q : List Line)
    (obs : List Obs) : WaitResult :=
  waitLoop t log [] [] q obs

/-!
## Transport: `send_raw` / `send_message`

`send_raw` refuses when the process was never started or has already
exited, and converts a `BrokenPipeError` on write/flush into a `False`
return; on success it writes `payload_str + "\n"` to the input pipe and
flushes.  The pipe is modelled as the list of successfully
written-and-flushed chunks; a failed write leaves it untouched.
-/

/-- The environment a send call runs against: `proc = none` models
`self.process is None` (never started), `some (some c)` a process whose
`poll()` reports exit code `c`, `some none` a live process; `broken`
models the write or flush raising `BrokenPipeError`. -/
structure SendEnv where
  proc : Option (Option Int)
  broken : Bool

/-- `send_raw(payload_str)`: returns the Python boolean together with the
input pipe after the call. -/
def send_raw (env : SendEnv) (pipe : List String) (payload_str : String) :
    Bool × List String :=
  match env.proc with
  | none => (false, pipe)
  | some (some _) => (false, pipe)
  | some none =>
      if env.broken then (false, pipe)
      else (true, pipe ++ [payload_str ++ "\n"])

/-- Hex digit for the `\u00XX` escapes of `json.dumps` (lowercase). -/
def hexDigit (n : Nat) : Char :=
  match n with
  | 0 => '0' | 1 => '1' | 2 => '2' | 3 => '3' | 4 => '4' | 5 => '5'
  | 6 => '6' | 7 => '7' | 8 => '8' | 9 => '9' | 10 => 'a' | 11 => 'b'
  | 12 => 'c' | 13 => 'd' | 14 => 'e' | _ => 'f'

/-- Character escaping of `json.dumps`: double quote, backslash and the
named control escapes, `\u00XX` for the remaining control characters,
everything else verbatim.  (The source calls `json.dumps` with default
options; the model leaves non-ASCII characters unescaped, a
representation choice that no claim observes.) -/
def escChar (c : Char) : String :=
  if c = '"' then "\\\""
  else if c = '\\' then "\\\\"
  else if c = '\n' then "\\n"
  else if c = '\r' then "\\r"
  else if c = '\t' then "\\t"
  else if c = Char.ofNat 8 then "\\b"
  else if c = Char.ofNat 12 then "\\f"
  else if c.toNat < 32 then
    "\\u00" ++ String.mk [hexDigit (c.toNat / 16), hexDigit (c.toNat % 16)]
  else String.singleton c

/-- Concatenation of the escapes of each character. -/
def escape : List Char → String
  | [] => ""
  | c :: cs => escChar c ++ escape cs

/-- `json.dumps` of a string: quoted, characters escaped. -/
def dumpStr (s : String) : String :=
  "\"" ++ escape s.data ++ "\""

mutual
/-- `json.dumps` with default separators (`", "` and `": "`). -/
def JVal.dumps : JVal → String
  | JVal.null => "null"
  | JVal.bool true => "true"
  | JVal.bool false => "false"
  | JVal.num n => toString n
  | JVal.str s => dumpStr s
  | JVal.arr xs => "[" ++ JVal.dumpsArr xs ++ "]"
  | JVal.obj fs => "\x7b" ++ JVal.dumpsObj fs ++ "\x7d"

/-- Serialize array elements, comma-separated. -/
def JVal.dumpsArr : List JVal → String
  | [] => ""
  | [v] => JVal.dumps v
  | v :: w :: rest => JVal.dumps v ++ ", " ++ JVal.dumpsArr (w :: rest)

/-- Serialize object fields, comma-separated. -/
def JVal.dumpsObj : List (String × JVal) → String
  | [] => ""
  | [(k, v)] => dumpStr k ++ ": " ++ JVal.dumps v
  | (k, v) :: p :: rest =>
      dumpStr k ++ ": " ++ JVal.dumps v ++ ", " ++ JVal.dumpsObj (p :: rest)
end

/-- The request object `send_message(text)` builds:
`{"type": "user", "message": {"role": "user",
  "content": [{"type": "text", "text": text}]}}`. -/
def messagePayload (text : String) : JVal :=
  JVal.obj
    [("type", JVal.str ("user")),
     ("message", JVal.obj
       [("role", JVal.str ("user")),
        ("content", JVal.arr
          [JVal.obj
            [("type", JVal.str ("text")),
             ("text", JVal.str text)]])])]

/-- `send_message(text) = send_raw(json.dumps(payload))`. -/
def send_message (env : SendEnv) (pipe : List String) (text : String) :
    Bool × List String :=
  send_raw env pipe (JVal.dumps (messagePayload text))

/-!
## Lifecycle: `stop`

`stop()` clears `self.running` and, when a process exists and its poll
reports it alive, calls `terminate()` followed by `wait(timeout=5)`.  The
model assumes the terminated process exits within the grace period (the
environment chooses the exit code `termExit`); the second component of
the return records whether a terminate signal was sent.
-/

/-- The lifecycle state `stop` touches: the `running` flag and the
process field (`none` = never started, `some none` = alive,
`some (some c)` = exited with code `c`). -/
structure StopState where
  running : Bool
  proc : Option (Option Int)
  deriving DecidableEq, Repr

/-- `stop()`: clears the running flag; terminates only a live process. -/
def stop (termExit : Int) (w : StopState) : StopState × Bool :=
  match w.proc with
  | some none => (⟨false, some (some termExit)⟩, true)
  | p => (⟨false, p⟩, false)

/-!
## Spec-side success predicate

`WaitSpec` renders §4.5/§8 of the design document in the spec's own words:
the wait succeeds exactly when a line parsing to a JSON event whose `type`
is `"result"` is consumed from the primary queue at some iteration, every
iteration up to and including that one passing both the deadline check
(elapsed time not exceeding the timeout) and the liveness check (the poll
still reporting the process running); earlier iterations may consume
non-`result` events, malformed lines, or find the queue empty.
-/

/-- Success of `wait(deadline)` per the spec, as a trace predicate over the
pending queue and the observation trace. -/
inductive WaitSpec (t : Nat) : List Line → List Obs → Prop where
  | found : ∀ (q : List Line) (o : Obs) (rest : List Obs) (e : JObj)
      (q2 : List Line),
      o.elapsed ≤ t → o.poll = none →
      q ++ o.arrivals = Line.event e :: q2 →
      jget e ("type") = some (JVal.str ("result")) →
      WaitSpec t q (o :: rest)
  | skipEmpty : ∀ (q : List Line) (o : Obs) (rest : List Obs),
      o.elapsed ≤ t → o.poll = none →
      q ++ o.arrivals = [] →
      WaitSpec t [] rest → WaitSpec t q (o :: rest)
  | skipMalformed : ∀ (q : List Line) (o : Obs) (rest : List Obs)
      (raw : String) (q2 : List Line),
      o.elapsed ≤ t → o.poll = none →
      q ++ o.arrivals = Line.malformed raw :: q2 →
      WaitSpec t q2 rest → WaitSpec t q (o :: rest)
  | skipEvent : ∀ (q : List Line) (o : Obs) (rest : List Obs) (e : JObj)
      (q2 : List Line),
      o.elapsed ≤ t → o.poll = none →
      q ++ o.arrivals = Line.event e :: q2 →
      jget e ("type") ≠ some (JVal.str ("result")) →
      WaitSpec t q2 rest → WaitSpec t q (o :: rest)

/-- Number of newline characters in a string (for the one-object-per-line
framing property). -/
def nlCount (s : String) : Nat := s.data.count '\n'

/-- No line of `ls` is an event classified `result`. -/
def noResultLine (ls : List Line) : Prop :=
  ∀ e : JObj, Line.event e ∈ ls → classify e ≠ EClass.result

/-!
## Helper lemmas
-/

/-- Unfolding `typeTag`. -/
theorem typeTag_eq_some (e : JObj) (s : String) :
    typeTag e = some s ↔ jget e ("type") = some (JVal.str s) := by
  unfold typeTag
  rcases h : jget e ("type") with _ | v
  · simp
  · cases v <;> simp_all

/-- An event is classified `result` exactly when its `type` field is the
string `"result"`. -/
theorem classify_eq_result_iff (e : JObj) :
    classify e = EClass.result ↔
      jget e ("type") = some (JVal.str ("result")) := by
  rw [← typeTag_eq_some]
  unfold classify
  rcases h : typeTag e with _ | s
  · simp
  · by_cases hs : s = "result"
    · subst hs; simp
    · simp only [Option.some.injEq]
      split_ifs <;> simp_all

/-- Step equation: deadline exceeded at the top of an iteration. -/
theorem waitLoop_step_timeout (t : Nat) (log : List JObj) (diag : List String)
    (events : List JObj) (q : List Line) (o : Obs) (rest : List Obs)
    (ht : t < o.elapsed) :
    waitLoop t log diag events q (o :: rest) =
      ⟨false, events, Reason.timeout, log, diag, q ++ o.arrivals, none⟩ := by
  simp only [waitLoop, if_pos ht]

/-- Step equation: the liveness poll observes process exit. -/
theorem waitLoop_step_exited (t : Nat) (log : List JObj) (diag : List String)
    (events : List JObj) (q : List Line) (o : Obs) (rest : List Obs)
    (code : Int) (ht : o.elapsed ≤ t) (hp : o.poll = some code) :
    waitLoop t log diag events q (o :: rest) =
      ⟨false, events, Reason.exited code, log, diag, q ++ o.arrivals,
        some code⟩ := by
  simp only [waitLoop, if_neg (Nat.not_lt.mpr ht), hp]

/-- Step equation: the merged queue is empty (`queue.Empty`), continue. -/
theorem waitLoop_step_empty (t : Nat) (log : List JObj) (diag : List String)
    (events : List JObj) (q : List Line) (o : Obs) (rest : List Obs)
    (ht : o.elapsed ≤ t) (hp : o.poll = none) (hq : q ++ o.arrivals = []) :
    waitLoop t log diag events q (o :: rest) =
      waitLoop t log diag events [] rest := by
  simp only [waitLoop, if_neg (Nat.not_lt.mpr ht), hp, hq]

/-- Step equation: the popped line fails `json.loads`; non-blank raw lines
are kept as diagnostics, the loop continues. -/
theorem waitLoop_step_malformed (t : Nat) (log : List JObj)
    (diag : List String) (events : List JObj) (q : List Line) (o : Obs)
    (rest : List Obs) (raw : String) (q2 : List Line)
    (ht : o.elapsed ≤ t) (hp : o.poll = none)
    (hq : q ++ o.arrivals = Line.malformed raw :: q2) :
    waitLoop t log diag events q (o :: rest) =
      waitLoop t log (if pyStrip raw = "" then diag else diag ++ [raw])
        events q2 rest := by
  simp only [waitLoop, if_neg (Nat.not_lt.mpr ht), hp, hq]

/-- Step equation: a `result` event is consumed — immediate success. -/
theorem waitLoop_step_result (t : Nat) (log : List JObj) (diag : List String)
    (events : List JObj) (q : List Line) (o : Obs) (rest : List Obs)
    (e : JObj) (q2 : List Line)
    (ht : o.elapsed ≤ t) (hp : o.poll = none)
    (hq : q ++ o.arrivals = Line.event e :: q2)
    (he : classify e = EClass.result) :
    waitLoop t log diag events q (o :: rest) =
      ⟨true, events ++ [e], Reason.success, log ++ [e], diag, q2, none⟩ := by
  simp only [waitLoop, if_neg (Nat.not_lt.mpr ht), hp, hq, if_pos he]

/-- Step equation: a non-`result` event is consumed — appended to both the
per-call list and the session log, the loop continues. -/
theorem waitLoop_step_event (t : Nat) (log : List JObj) (diag : List String)
    (events : List JObj) (q : List Line) (o : Obs) (rest : List Obs)
    (e : JObj) (q2 : List Line)
    (ht : o.elapsed ≤ t) (hp : o.poll = none)
    (hq : q ++ o.arrivals = Line.event e :: q2)
    (he : classify e ≠ EClass.result) :
    waitLoop t log diag events q (o :: rest) =
      waitLoop t (log ++ [e]) diag (events ++ [e]) q2 rest := by
  simp only [waitLoop, if_neg (Nat.not_lt.mpr ht), hp, hq, if_neg he]

/-- Invariant of the loop: the per-call `events` list and the session
`event_log` grow by the same list of events, in the same order. -/
theorem waitLoop_events_log (t : Nat) :
    ∀ (obs : List Obs) (q : List Line) (log : List JObj)
      (diag : List String) (events : List JObj),
    ∃ d : List JObj,
      (waitLoop t log diag events q obs).events = events ++ d ∧
      (waitLoop t log diag events q obs).eventLog = log ++ d := by
  intro obs
  induction obs with
  | nil =>
    intro q log diag events
    exact ⟨[], by simp [waitLoop], by simp [waitLoop]⟩
  | cons o rest ih =>
    intro q log diag events
    by_cases ht : t < o.elapsed
    · rw [waitLoop_step_timeout t log diag events q o rest ht]
      exact ⟨[], by simp, by simp⟩
    · rw [Nat.not_lt] at ht
      rcases hp : o.poll with _ | code
      · rcases hq : q ++ o.arrivals with _ | ⟨l, q2⟩
        · rw [waitLoop_step_empty t log diag events q o rest ht hp hq]
          exact ih [] log diag events
        · cases l with
          | malformed raw =>
            rw [waitLoop_step_malformed t log diag events q o rest raw q2
              ht hp hq]
            exact ih q2 log _ events
          | event e =>
            by_cases he : classify e = EClass.result
            · rw [waitLoop_step_result t log diag events q o rest e q2
                ht hp hq he]
              exact ⟨[e], rfl, rfl⟩
            · rw [waitLoop_step_event t log diag events q o rest e q2
                ht hp hq he]
              obtain ⟨d, h1, h2⟩ := ih q2 (log ++ [e]) diag (events ++ [e])
              exact ⟨e :: d, by rw [h1]; simp, by rw [h2]; simp⟩
      · rw [waitLoop_step_exited t log diag events q o rest code ht hp]
        exact ⟨[], by simp, by simp⟩

/-- The loop body implements the spec's success condition: the call
returns `True` exactly when `WaitSpec` holds of the pending queue and the
observation trace (independently of the accumulators). -/
theorem waitLoop_ok_iff (t : Nat) :
    ∀ (obs : List Obs) (q : List Line) (log : List JObj)
      (diag : List String) (events : List JObj),
    (waitLoop t log diag events q obs).ok = true ↔ WaitSpec t q obs := by
  intro obs
  induction obs with
  | nil =>
    intro q log diag events
    constructor
    · intro h; simp [waitLoop] at h
    · intro hs; cases hs
  | cons o rest ih =>
    intro q log diag events
    by_cases ht : t < o.elapsed
    · rw [waitLoop_step_timeout t log diag events q o rest ht]
      constructor
      · intro h; simp at h
      · intro hs; exfalso; cases hs <;> omega
    · rw [Nat.not_lt] at ht
      rcases hp : o.poll with _ | code
      · rcases hq : q ++ o.arrivals with _ | ⟨l, q2⟩
        · rw [waitLoop_step_empty t log diag events q o rest ht hp hq,
            ih [] log diag events]
          constructor
          · intro hs; exact WaitSpec.skipEmpty q o rest ht hp hq hs
          · intro hs; cases hs <;> simp_all
        · cases l with
          | malformed raw =>
            rw [waitLoop_step_malformed t log diag events q o rest raw q2
                ht hp hq,
              ih q2 log (if pyStrip raw = "" then diag else diag ++ [raw])
                events]
            constructor
            · intro hs; exact WaitSpec.skipMalformed q o rest raw q2
                ht hp hq hs
            · intro hs; cases hs <;> simp_all
          | event e =>
            by_cases he : classify e = EClass.result
            · rw [waitLoop_step_result t log diag events q o rest e q2
                ht hp hq he]
              simp only [true_iff, show
                (⟨true, events ++ [e], Reason.success, log ++ [e], diag, q2,
                  none⟩ : WaitResult).ok = true from rfl]
              exact WaitSpec.found q o rest e q2 ht hp hq
                ((classify_eq_result_iff e).mp he)
            · rw [waitLoop_step_event t log diag events q o rest e q2
                ht hp hq he,
                ih q2 (log ++ [e]) diag (events ++ [e])]
              constructor
              · intro hs
                exact WaitSpec.skipEvent q o rest e q2 ht hp hq
                  (fun h => he ((classify_eq_result_iff e).mpr h)) hs
              · intro hs
                cases hs <;> simp_all [← classify_eq_result_iff]
      · rw [waitLoop_step_exited t log diag events q o rest code ht hp]
        constructor
        · intro h; simp at h
        · intro hs; exfalso; cases hs <;> simp_all

/-- `noResultLine` is preserved by concatenation. -/
theorem noResultLine_append {a b : List Line} (ha : noResultLine a)
    (hb : noResultLine b) : noResultLine (a ++ b) := by
  intro e he
  rcases List.mem_append.mp he with h | h
  · exact ha e h
  · exact hb e h

/-- `noResultLine` passes to the tail of a list. -/
theorem noResultLine_cons_tail {l : Line} {ls : List Line}
    (h : noResultLine (l :: ls)) : noResultLine ls :=
  fun e he => h e (List.mem_cons_of_mem _ he)

/-- When no line of the queue or of any arrival batch is a `result` event
and the process never exits, the wait cannot succeed, and if the trace
reaches the deadline the loop ends by timeout. -/
theorem waitLoop_no_result (t : Nat) :
    ∀ (obs : List Obs) (q : List Line) (log : List JObj)
      (diag : List String) (events : List JObj),
    noResultLine q → (∀ o ∈ obs, noResultLine o.arrivals) →
    (∀ o ∈ obs, o.poll = none) →
    (waitLoop t log diag events q obs).ok = false ∧
    ((∃ o ∈ obs, t < o.elapsed) →
      (waitLoop t log diag events q obs).reason = Reason.timeout) := by
  intro obs
  induction obs with
  | nil =>
    intro q log diag events _ _ _
    refine ⟨by simp [waitLoop], ?_⟩
    rintro ⟨o, ho, -⟩
    simp at ho
  | cons o rest ih =>
    intro q log diag events hq harr hpoll
    have hp : o.poll = none := hpoll o (List.mem_cons_self o rest)
    by_cases ht : t < o.elapsed
    · rw [waitLoop_step_timeout t log diag events q o rest ht]
      exact ⟨rfl, fun _ => rfl⟩
    · rw [Nat.not_lt] at ht
      have hq1 : noResultLine (q ++ o.arrivals) :=
        noResultLine_append hq (harr o (List.mem_cons_self o rest))
      have harr2 : ∀ o2 ∈ rest, noResultLine o2.arrivals :=
        fun o2 h => harr o2 (List.mem_cons_of_mem _ h)
      have hpoll2 : ∀ o2 ∈ rest, o2.poll = none :=
        fun o2 h => hpoll o2 (List.mem_cons_of_mem _ h)
      have hex : (∃ o2 ∈ o :: rest, t < o2.elapsed) →
          ∃ o2 ∈ rest, t < o2.elapsed := by
        rintro ⟨o2, ho2, hlt⟩
        rcases List.mem_cons.mp ho2 with h | h
        · subst h; omega
        · exact ⟨o2, h, hlt⟩
      rcases hqe : q ++ o.arrivals with _ | ⟨l, q2⟩
      · rw [waitLoop_step_empty t log diag events q o rest ht hp hqe]
        have h2 := ih [] log diag events (by intro e he; simp at he)
          harr2 hpoll2
        exact ⟨h2.1, fun h => h2.2 (hex h)⟩
      · have hq2 : noResultLine q2 := by
          rw [hqe] at hq1; exact noResultLine_cons_tail hq1
        cases l with
        | malformed raw =>
          rw [waitLoop_step_malformed t log diag events q o rest raw q2
            ht hp hqe]
          have h2 := ih q2 log
            (if pyStrip raw = "" then diag else diag ++ [raw]) events hq2
            harr2 hpoll2
          exact ⟨h2.1, fun h => h2.2 (hex h)⟩
        | event e =>
          have he : classify e ≠ EClass.result := by
            rw [hqe] at hq1; exact hq1 e (List.mem_cons_self _ _)
          rw [waitLoop_step_event t log diag events q o rest e q2
            ht hp hqe he]
          have h2 := ih q2 (log ++ [e]) diag (events ++ [e]) hq2
            harr2 hpoll2
          exact ⟨h2.1, fun h => h2.2 (hex h)⟩

/-- On success the last event of the returned list is the `result` event. -/
theorem waitLoop_success_last (t : Nat) :
    ∀ (obs : List Obs) (q : List Line) (log : List JObj)
      (diag : List String) (events : List JObj),
    (waitLoop t log diag events q obs).ok = true →
    ∃ e, (waitLoop t log diag events q obs).events.getLast? = some e ∧
      classify e = EClass.result := by
  intro obs
  induction obs with
  | nil => intro q log diag events h; simp [waitLoop] at h
  | cons o rest ih =>
    intro q log diag events h
    by_cases ht : t < o.elapsed
    · rw [waitLoop_step_timeout t log diag events q o rest ht] at h ⊢
      simp at h
    · rw [Nat.not_lt] at ht
      rcases hp : o.poll with _ | code
      · rcases hq : q ++ o.arrivals with _ | ⟨l, q2⟩
        · rw [waitLoop_step_empty t log diag events q o rest ht hp hq]
            at h ⊢
          exact ih [] log diag events h
        · cases l with
          | malformed raw =>
            rw [waitLoop_step_malformed t log diag events q o rest raw q2
              ht hp hq] at h ⊢
            exact ih q2 log _ events h
          | event e =>
            by_cases he : classify e = EClass.result
            · rw [waitLoop_step_result t log diag events q o rest e q2
                ht hp hq he]
              exact ⟨e, by simp, he⟩
            · rw [waitLoop_step_event t log diag events q o rest e q2
                ht hp hq he] at h ⊢
              exact ih q2 (log ++ [e]) diag (events ++ [e]) h
      · rw [waitLoop_step_exited t log diag events q o rest code ht hp]
          at h
        simp at h

/-- Newline count is additive over concatenation. -/
theorem nlCount_append (a b : String) :
    nlCount (a ++ b) = nlCount a + nlCount b := by
  simp [nlCount, String.data_append, List.count_append]

/-- Hex digits are never the newline character. -/
theorem hexDigit_ne_nl (n : Nat) : hexDigit n ≠ '\n' := by
  unfold hexDigit
  split <;> decide

/-- Escaping a character never produces a newline. -/
theorem nlCount_escChar (c : Char) : nlCount (escChar c) = 0 := by
  unfold escChar
  split_ifs with h1 h2 h3 h4 h5 h6 h7 h8
  · decide
  · decide
  · decide
  · decide
  · decide
  · decide
  · decide
  · rw [nlCount_append]
    have hx := hexDigit_ne_nl (c.toNat / 16)
    have hy := hexDigit_ne_nl (c.toNat % 16)
    simp [nlCount, List.count_cons, hx, hy]
  · simp [nlCount, String.singleton, List.count_cons, h3]

/-- Escaping a character list never produces a newline. -/
theorem nlCount_escape (l : List Char) : nlCount (escape l) = 0 := by
  induction l with
  | nil => decide
  | cons c cs ih => rw [escape, nlCount_append, nlCount_escChar, ih]

/-- A dumped string contains no newline. -/
theorem nlCount_dumpStr (s : String) : nlCount (dumpStr s) = 0 := by
  rw [dumpStr, nlCount_append, nlCount_append, nlCount_escape]
  decide

/-- The serialized request line contains no newline: the payload occupies
exactly one line of the input stream. -/
theorem nlCount_messagePayload (text : String) :
    nlCount (JVal.dumps (messagePayload text)) = 0 := by
  simp only [messagePayload, JVal.dumps, JVal.dumpsObj, JVal.dumpsArr,
    nlCount_append, nlCount_dumpStr]
  decide

/-- An event whose `type` field is not (a string equal to) any recognized
tag — in particular an absent or non-string `type` — lands in the default
arm of the dispatch chain. -/
theorem classify_eq_other_of_unrecognized (e : JObj)
    (h : ∀ s ∈ recognizedTags, jget e ("type") ≠ some (JVal.str s)) :
    classify e = EClass.other := by
  unfold classify
  rcases htag : typeTag e with _ | s
  · rfl
  · have hj := (typeTag_eq_some e s).mp htag
    have hs : s ∉ recognizedTags := fun hmem => h s hmem hj
    simp only [recognizedTags, List.mem_cons, List.not_mem_nil, or_false,
      not_or] at hs
    obtain ⟨n1, n2, n3, n4, n5, n6, n7⟩ := hs
    simp [n1, n2, n3, n4, n5, n6, n7]

/-!
## The claims
-/

/-- Claim C1: `wait_for_result(timeout)` returns success if and only if a
line parsing to a JSON event with type `"result"` is consumed from the
primary (stdout) queue at an iteration at which the elapsed time has not
exceeded the timeout and the liveness poll still reports the process
running — the condition `WaitSpec` states in the spec's words.  In
particular a `result` event still sitting in the queue when the liveness
poll first reports process exit does not produce success: every
`WaitSpec` constructor requires the poll to report the process running,
so a trace whose poll reports exit before the event is consumed
fails the predicate and hence returns failure. -/
theorem claim_C1 (t : Nat) (log : List JObj) (q : List Line)
    (obs : List Obs) :
    (waitForResult t log q obs).ok = true ↔ WaitSpec t q obs :=
  waitLoop_ok_iff t obs q log [] []

/-- Claim C8: every event returned by a `wait_for_result` call is also
appended to the session's permanent event log, in the exact order
received: the log after the call is the log before it, extended by
precisely the returned events list, whatever the call's outcome. -/
theorem claim_C8 (t : Nat) (log : List JObj) (q : List Line)
    (obs : List Obs) :
    (waitForResult t log q obs).eventLog =
      log ++ (waitForResult t log q obs).events := by
  obtain ⟨d, h1, h2⟩ := waitLoop_events_log t obs q log [] []
  unfold waitForResult
  rw [h1, h2]
  simp

/-- Claim C10: whenever `wait_for_result` returns success, the returned
events list is non-empty and its final element is the `result` event that
triggered the return (first conjunct); and the iteration that consumes a
`result` event returns at once — the per-call list ends at that event,
the remainder of the queue is left in place, and the later observations
of the trace are never consulted (second conjunct: the outcome does not
depend on `rest`). -/
theorem claim_C10 :
    (∀ (t : Nat) (log : List JObj) (q : List Line) (obs : List Obs),
      (waitForResult t log q obs).ok = true →
      ∃ e, (waitForResult t log q obs).events.getLast? = some e ∧
        classify e = EClass.result) ∧
    (∀ (t : Nat) (log : List JObj) (diag : List String)
      (events : List JObj) (q : List Line) (o : Obs) (rest : List Obs)
      (e : JObj) (q2 : List Line),
      o.elapsed ≤ t → o.poll = none →
      q ++ o.arrivals = Line.event e :: q2 →
      classify e = EClass.result →
      waitLoop t log diag events q (o :: rest) =
        ⟨true, events ++ [e], Reason.success, log ++ [e], diag, q2,
          none⟩) := by
  constructor
  · intro t log q obs h
    exact waitLoop_success_last t obs q log [] [] h
  · intro t log diag events q o rest e q2 ht hp hq he
    exact waitLoop_step_result t log diag events q o rest e q2 ht hp hq he

/-- Witness for C10 at a concrete trace: a queue holding one `result`
event followed by one `assistant` event; the call succeeds, the returned
list ends at the `result` event, and the `assistant` event stays queued. -/
theorem claim_C10_witness :
    (∃ e, (waitForResult 60 []
        [Line.event [("type", JVal.str ("result"))],
         Line.event [("type", JVal.str ("assistant"))]]
        [⟨0, none, []⟩]).events.getLast? = some e ∧
      classify e = EClass.result) ∧
    waitLoop 60 [] [] []
        [Line.event [("type", JVal.str ("result"))],
         Line.event [("type", JVal.str ("assistant"))]]
        [⟨0, none, []⟩] =
      ⟨true, [[("type", JVal.str ("result"))]], Reason.success,
        [[("type", JVal.str ("result"))]], [],
        [Line.event [("type", JVal.str ("assistant"))]], none⟩ := by
  constructor
  · exact claim_C10.1 60 []
      [Line.event [("type", JVal.str ("result"))],
       Line.event [("type", JVal.str ("assistant"))]]
      [⟨0, none, []⟩] (by rfl)
  · exact claim_C10.2 60 [] [] []
      [Line.event [("type", JVal.str ("result"))],
       Line.event [("type", JVal.str ("assistant"))]]
      ⟨0, none, []⟩ []
      [("type", JVal.str ("result"))]
      [Line.event [("type", JVal.str ("assistant"))]]
      (by decide) rfl rfl (by rfl)

/-- Counterexample to C2 as stated: the value `wait_for_result` returns is
the pair `(False, events)` — it does not carry the exit code.  Two runs
that only differ in the observed exit code (3 versus 5) return values
that are equal componentwise, and that moreover coincide with the return
of a pure-timeout run; the exit code is only reported through the error
log (`loggedExit`), where the two runs do differ. -/
theorem claim_C2_counterexample :
    ((waitForResult 60 [] [] [⟨0, some 3, []⟩]).ok,
      (waitForResult 60 [] [] [⟨0, some 3, []⟩]).events) =
      ((waitForResult 60 [] [] [⟨0, some 5, []⟩]).ok,
        (waitForResult 60 [] [] [⟨0, some 5, []⟩]).events) ∧
    ((waitForResult 60 [] [] [⟨0, some 3, []⟩]).ok,
      (waitForResult 60 [] [] [⟨0, some 3, []⟩]).events) =
      ((waitForResult 60 [] [] [⟨61, none, []⟩]).ok,
        (waitForResult 60 [] [] [⟨61, none, []⟩]).events) ∧
    (waitForResult 60 [] [] [⟨0, some 3, []⟩]).loggedExit ≠
      (waitForResult 60 [] [] [⟨0, some 5, []⟩]).loggedExit := by
  refine ⟨rfl, rfl, ?_⟩
  decide

/-- Claim C2 (amended): when the liveness poll reports exit before a
`result` event is consumed, the call returns failure (`False` with the
events so far) and reports the exit code through the error log — the
return value itself does not include the code; no further lines are
drained by that call after exit is detected: the queue is left as it
stood and the rest of the trace is never consulted. -/
theorem claim_C2 (t : Nat) (log : List JObj) (diag : List String)
    (events : List JObj) (q : List Line) (o : Obs) (rest : List Obs)
    (code : Int) (ht : o.elapsed ≤ t) (hp : o.poll = some code) :
    (waitLoop t log diag events q (o :: rest)).ok = false ∧
    (waitLoop t log diag events q (o :: rest)).events = events ∧
    (waitLoop t log diag events q (o :: rest)).loggedExit = some code ∧
    (waitLoop t log diag events q (o :: rest)).reason =
      Reason.exited code ∧
    (waitLoop t log diag events q (o :: rest)).queue = q ++ o.arrivals ∧
    ∀ rest2, waitLoop t log diag events q (o :: rest2) =
      waitLoop t log diag events q (o :: rest) := by
  rw [waitLoop_step_exited t log diag events q o rest code ht hp]
  refine ⟨rfl, rfl, rfl, rfl, rfl, ?_⟩
  intro rest2
  rw [waitLoop_step_exited t log diag events q o rest2 code ht hp]

/-- Witness for C2 at a concrete input: process observed exited with code
7 while a `result` event is still queued — failure, empty events, code 7
logged, the event left on the queue. -/
theorem claim_C2_witness :
    (waitLoop 60 [] [] [] [Line.event [("type", JVal.str ("result"))]]
      [⟨1, some 7, []⟩]).ok = false ∧
    (waitLoop 60 [] [] [] [Line.event [("type", JVal.str ("result"))]]
      [⟨1, some 7, []⟩]).loggedExit = some 7 ∧
    (waitLoop 60 [] [] [] [Line.event [("type", JVal.str ("result"))]]
      [⟨1, some 7, []⟩]).queue =
      [Line.event [("type", JVal.str ("result"))]] := by
  have h := claim_C2 60 [] [] [] [Line.event [("type", JVal.str ("result"))]]
    ⟨1, some 7, []⟩ [] 7 (by decide) rfl
  exact ⟨h.1, h.2.2.1, h.2.2.2.2.1⟩

/-- Claim C3: an `error`-typed event consumed during the wait is appended
to the returned events list and to the session log, and the loop
continues — the call does not return because of it (first conjunct); and
a stream containing no `result` event at all — in particular one carrying
only an `error` event — with the process staying alive makes the call
fail, exhausting its timeout whenever the trace reaches the deadline
(second conjunct). -/
theorem claim_C3 :
    (∀ (t : Nat) (log : List JObj) (diag : List String)
      (events : List JObj) (q : List Line) (o : Obs) (rest : List Obs)
      (e : JObj) (q2 : List Line),
      o.elapsed ≤ t → o.poll = none →
      q ++ o.arrivals = Line.event e :: q2 →
      classify e = EClass.error →
      waitLoop t log diag events q (o :: rest) =
        waitLoop t (log ++ [e]) diag (events ++ [e]) q2 rest) ∧
    (∀ (t : Nat) (log : List JObj) (q : List Line) (obs : List Obs),
      noResultLine q → (∀ o ∈ obs, noResultLine o.arrivals) →
      (∀ o ∈ obs, o.poll = none) →
      (waitForResult t log q obs).ok = false ∧
      ((∃ o ∈ obs, t < o.elapsed) →
        (waitForResult t log q obs).reason = Reason.timeout)) := by
  constructor
  · intro t log diag events q o rest e q2 ht hp hq he
    exact waitLoop_step_event t log diag events q o rest e q2 ht hp hq
      (by rw [he]; decide)
  · intro t log q obs hq harr hpoll
    exact waitLoop_no_result t obs q log [] [] hq harr hpoll

/-- Witness for C3 at a concrete input: one `error` event and no `result`;
the event is consumed and kept, and the run ends in timeout, not early. -/
theorem claim_C3_witness :
    waitLoop 60 [] [] [] [Line.event [("type", JVal.str ("error"))]]
        [⟨0, none, []⟩, ⟨61, none, []⟩] =
      waitLoop 60 [[("type", JVal.str ("error"))]] []
        [[("type", JVal.str ("error"))]] [] [⟨61, none, []⟩] ∧
    (waitForResult 60 [] [Line.event [("type", JVal.str ("error"))]]
      [⟨0, none, []⟩, ⟨61, none, []⟩]).ok = false ∧
    (waitForResult 60 [] [Line.event [("type", JVal.str ("error"))]]
      [⟨0, none, []⟩, ⟨61, none, []⟩]).reason = Reason.timeout := by
  refine ⟨?_, ?_, ?_⟩
  · exact claim_C3.1 60 [] [] []
      [Line.event [("type", JVal.str ("error"))]] ⟨0, none, []⟩
      [⟨61, none, []⟩] [("type", JVal.str ("error"))] []
      (by decide) rfl rfl (by rfl)
  · exact (claim_C3.2 60 [] [Line.event [("type", JVal.str ("error"))]]
      [⟨0, none, []⟩, ⟨61, none, []⟩]
      (by intro e he; simp at he; rw [he]; decide)
      (by intro o ho e he; simp at ho; rcases ho with h | h <;>
        subst h <;> simp at he)
      (by intro o ho; simp at ho; rcases ho with h | h <;> rw [h])).1
  · exact (claim_C3.2 60 [] [Line.event [("type", JVal.str ("error"))]]
      [⟨0, none, []⟩, ⟨61, none, []⟩]
      (by intro e he; simp at he; rw [he]; decide)
      (by intro o ho e he; simp at ho; rcases ho with h | h <;>
        subst h <;> simp at he)
      (by intro o ho; simp at ho; rcases ho with h | h <;> rw [h])).2
      ⟨⟨61, none, []⟩, by simp, by decide⟩

/-- Claim C4: a consumed line parsing to a JSON object whose `type` field
is none of the recognized tags — or is absent, or not a string — is
classified into the default (`other`) arm, appended unmodified to both
the returned events list and the session event log, and the loop
continues: no such event is rejected, discarded, or treated as an
error. -/
theorem claim_C4 (t : Nat) (log : List JObj) (diag : List String)
    (events : List JObj) (q : List Line) (o : Obs) (rest : List Obs)
    (e : JObj) (q2 : List Line)
    (ht : o.elapsed ≤ t) (hp : o.poll = none)
    (hq : q ++ o.arrivals = Line.event e :: q2)
    (hu : ∀ s ∈ recognizedTags, jget e ("type") ≠ some (JVal.str s)) :
    classify e = EClass.other ∧
    waitLoop t log diag events q (o :: rest) =
      waitLoop t (log ++ [e]) diag (events ++ [e]) q2 rest := by
  have ho := classify_eq_other_of_unrecognized e hu
  exact ⟨ho, waitLoop_step_event t log diag events q o rest e q2 ht hp hq
    (by rw [ho]; decide)⟩

/-- Witness for C4 at a concrete input: an event of the unrecognized type
`"progress_update"` is classified `other` and appended to both lists. -/
theorem claim_C4_witness :
    classify [("type", JVal.str ("progress_update"))] = EClass.other ∧
    waitLoop 60 [] [] []
        [Line.event [("type", JVal.str ("progress_update"))]]
        [⟨0, none, []⟩] =
      waitLoop 60 [[("type", JVal.str ("progress_update"))]] []
        [[("type", JVal.str ("progress_update"))]] [] [] :=
  claim_C4 60 [] [] [] [Line.event [("type", JVal.str ("progress_update"))]]
    ⟨0, none, []⟩ [] [("type", JVal.str ("progress_update"))] []
    (by decide) rfl rfl
    (by intro s hs h
        simp [jget] at h
        subst h
        simp [recognizedTags] at hs)

/-- Counterexample to C5 as stated: a line that fails JSON parsing is
claimed to always be retained as a diagnostic log entry, but the source
guards retention by `if line.strip():` — an empty line (which the reader
thread can enqueue, since it strips before queuing) fails `json.loads`,
is consumed by the loop, is appended nowhere, and leaves the diagnostic
log empty. -/
theorem claim_C5_counterexample :
    (waitForResult 60 [] [Line.malformed ("")] [⟨0, none, []⟩]).diagLog
        = [] ∧
    (waitForResult 60 [] [Line.malformed ("")] [⟨0, none, []⟩]).queue
        = [] ∧
    (waitForResult 60 [] [Line.malformed ("")] [⟨0, none, []⟩]).events
        = [] ∧
    (waitForResult 60 [] [Line.malformed ("")] [⟨0, none, []⟩]).eventLog
        = [] :=
  ⟨rfl, rfl, rfl, rfl⟩

/-- Claim C5 (amended): a line consumed from the primary queue that fails
JSON parsing is never appended to the returned events list or the session
event log, and the wait loop is not aborted; it is retained as a
diagnostic log entry exactly when it is non-blank after stripping —
blank malformed lines are dropped entirely. -/
theorem claim_C5 (t : Nat) (log : List JObj) (diag : List String)
    (events : List JObj) (q : List Line) (o : Obs) (rest : List Obs)
    (raw : String) (q2 : List Line)
    (ht : o.elapsed ≤ t) (hp : o.poll = none)
    (hq : q ++ o.arrivals = Line.malformed raw :: q2) :
    (pyStrip raw ≠ "" →
      waitLoop t log diag events q (o :: rest) =
        waitLoop t log (diag ++ [raw]) events q2 rest) ∧
    (pyStrip raw = "" →
      waitLoop t log diag events q (o :: rest) =
        waitLoop t log diag events q2 rest) := by
  constructor
  · intro h
    rw [waitLoop_step_malformed t log diag events q o rest raw q2 ht hp hq,
      if_neg h]
  · intro h
    rw [waitLoop_step_malformed t log diag events q o rest raw q2 ht hp hq,
      if_pos h]

/-- Witness for C5 at concrete inputs: the non-blank malformed line
`"oops"` is kept as a diagnostic and skipped. -/
theorem claim_C5_witness :
    waitLoop 60 [] [] [] [Line.malformed ("oops")] [⟨0, none, []⟩] =
      waitLoop 60 [] [("oops")] [] [] [] :=
  (claim_C5 60 [] [] [] [Line.malformed ("oops")] ⟨0, none, []⟩ []
    ("oops") [] (by decide) rfl rfl).1 (by decide)

/-- Claim C6: `send_raw` (and through it `send_message`) returns `False` —
raising nothing, since the model is a total function whose only failure
signal is that boolean — whenever the process was never started, has
already exited, or the input pipe is broken; it returns `True` exactly
when the process is live and unbroken, in which case (and only then) the
newline-terminated serialized line is written to the pipe and flushed. -/
theorem claim_C6 (env : SendEnv) (pipe : List String) (payload : String) :
    ((send_raw env pipe payload).1 = true ↔
      env.proc = some none ∧ env.broken = false) ∧
    ((send_raw env pipe payload).1 = true →
      (send_raw env pipe payload).2 = pipe ++ [payload ++ "\n"]) ∧
    ((send_raw env pipe payload).1 = false →
      (send_raw env pipe payload).2 = pipe) ∧
    (∀ text, (send_message env pipe text).1 =
      (send_raw env pipe (JVal.dumps (messagePayload text))).1) := by
  obtain ⟨p, b⟩ := env
  rcases p with _ | (_ | c) <;> cases b <;>
    simp [send_raw, send_message]

/-- Witness for C6 at concrete inputs: a live, unbroken pipe accepts the
write; a dead process refuses it and leaves the pipe untouched. -/
theorem claim_C6_witness :
    (send_raw ⟨some none, false⟩ [] ("x")).2 = [("x") ++ "\n"] ∧
    (send_raw ⟨some (some 1), false⟩ [] ("x")).2 = [] :=
  ⟨(claim_C6 ⟨some none, false⟩ [] ("x")).2.1 rfl,
    (claim_C6 ⟨some (some 1), false⟩ [] ("x")).2.2.1 rfl⟩

/-- Claim C7: on a live, unbroken pipe, `send_message(text)` writes
exactly one chunk, the JSON serialization of
`{"type": "user", "message": {"role": "user",
"content": [{"type": "text", "text": text}]}}` followed by a newline,
and flushes it (the modelled pipe records written-and-flushed chunks);
the chunk contains exactly one newline character, the terminator — so
exactly one newline-terminated line is written, whatever `text`
contains. -/
theorem claim_C7 (env : SendEnv) (pipe : List String) (text : String)
    (h1 : env.proc = some none) (h2 : env.broken = false) :
    send_message env pipe text =
      (true, pipe ++ [JVal.dumps (messagePayload text) ++ "\n"]) ∧
    nlCount (JVal.dumps (messagePayload text) ++ "\n") = 1 := by
  constructor
  · obtain ⟨p, b⟩ := env
    simp only at h1 h2
    subst h1; subst h2
    simp [send_message, send_raw]
  · rw [nlCount_append, nlCount_messagePayload]
    decide

/-- Witness for C7 at a concrete input. -/
theorem claim_C7_witness :
    send_message ⟨some none, false⟩ [] ("hi") =
      (true, [JVal.dumps (messagePayload ("hi")) ++ "\n"]) ∧
    nlCount (JVal.dumps (messagePayload ("hi")) ++ "\n") = 1 :=
  claim_C7 ⟨some none, false⟩ [] ("hi") rfl rfl

/-- Claim C9: `stop()` always clears the running flag; it sends a
terminate signal exactly when a process exists and is still alive (and
then blocks for it within the grace period, modelled by the process
reaching an exit code); on an already-exited, already-stopped, or
never-started wrapper it performs no termination action (the process
field is untouched) and raises no error (the model is total); and a
second `stop` performs no action and leaves the state of a single
`stop`. -/
theorem claim_C9 (termExit : Int) (w : StopState) :
    (stop termExit w).1.running = false ∧
    ((stop termExit w).2 = true ↔ w.proc = some none) ∧
    (w.proc ≠ some none →
      (stop termExit w).1.proc = w.proc ∧ (stop termExit w).2 = false) ∧
    stop termExit (stop termExit w).1 = ((stop termExit w).1, false) := by
  obtain ⟨r, p⟩ := w
  rcases p with _ | (_ | c) <;> simp [stop]

/-- Witness for C9 at concrete states: stopping a live process, then
stopping again, and stopping a never-started wrapper. -/
theorem claim_C9_witness :
    (stop 0 ⟨true, some none⟩).1.running = false ∧
    stop 0 (stop 0 ⟨true, some none⟩).1 = ((stop 0 ⟨true, some none⟩).1, false) ∧
    (stop 0 ⟨true, none⟩).1.proc = none ∧ (stop 0 ⟨true, none⟩).2 = false :=
  ⟨(claim_C9 0 ⟨true, some none⟩).1,
    (claim_C9 0 ⟨true, some none⟩).2.2.2,
    (claim_C9 0 ⟨true, none⟩).2.2.1 (by simp)⟩
